import Mathlib

/-!
Shallow embedding of the RDMC resonance-structure generation and filtration
engine (modules `rdmc/resonance/filtration.py`, `rdmc/resonance/pathfinder.py`
and `rdmc/resonance/resonance_rmg.py`), together with theorems settling the
frozen claims about it.

Molecules are modelled as plain graphs of atoms and bonds.  Quantities that
Python computes in floating point (lone-pair counts, octet deviations) are
modelled as exact rationals; every value actually produced is a multiple of
one half, which floats represent exactly, so the rational model coincides
with the reference arithmetic.

Capabilities supplied by the external RDKit library (substructure matching,
ring perception, sanitization, shortest paths, the electronegativity table,
the oxonium SMARTS template) are not part of this repository's source; they
are collected in a `Caps` record and quantified over, so that every theorem
holds for any behaviour of the external library.  Small helpers that live in
`rdmc.resonance.utils` (not shipped in the analysed sources) are modelled
from the specification and marked as such in their doc comments.
-/

namespace RDMC

/-- Atom record: atomic number, formal charge, radical-electron count,
mirroring the fields of an RDKit atom used by the resonance engine. -/
structure Atom where
  atomicNum : Nat
  formalCharge : Int
  numRadicalElectrons : Nat
deriving DecidableEq, Repr, Inhabited

/-- Bond orders used by the engine: single, double, triple and aromatic. -/
inductive BondType where
  | single
  | double
  | triple
  | aromatic
deriving DecidableEq, Repr, Inhabited

/-- Integer code of a bond type as compared against literals `1`, `2`, `3`
in the Python source (RDKit bond-type enum values; AROMATIC is 12). -/
def BondType.code : BondType → Nat
  | .single => 1
  | .double => 2
  | .triple => 3
  | .aromatic => 12

/-- Twice the floating-point bond order (`GetBondTypeAsDouble`): single 1.0,
double 2.0, triple 3.0, aromatic 1.5.  Working with twice the value keeps
the arithmetic in the naturals. -/
def BondType.twiceOrder : BondType → Nat
  | .single => 2
  | .double => 4
  | .triple => 6
  | .aromatic => 3

/-- Bond record: the two endpoint atom indices and the bond order. -/
structure Bond where
  beginAtomIdx : Nat
  endAtomIdx : Nat
  bondType : BondType
deriving DecidableEq, Repr, Inhabited

/-- Molecular graph: a list of atoms (indexed by position) and a list of
bonds (also indexed by position, as RDKit bond indices). -/
structure Mol where
  atoms : List Atom
  bonds : List Bond
deriving DecidableEq, Repr, Inhabited

/-- Atom at index `i` (callers only use valid indices). -/
def Mol.getAtom (mol : Mol) (i : Nat) : Atom :=
  mol.atoms.getD i default

/-- Bonds incident to atom `i` (the Python `atom.GetBonds()`). -/
def Mol.atomBonds (mol : Mol) (i : Nat) : List Bond :=
  mol.bonds.filter fun b => b.beginAtomIdx = i || b.endAtomIdx = i

/-- Incident bonds of atom `i` paired with their bond indices. -/
def Mol.atomBondsIdx (mol : Mol) (i : Nat) : List (Nat × Bond) :=
  mol.bonds.enum.filter fun p => p.2.beginAtomIdx = i || p.2.endAtomIdx = i

/-- Index of the atom on the other end of bond `b`, seen from atom `i`
(the Python `bond.GetOtherAtom(atom)`). -/
def Bond.otherIdx (b : Bond) (i : Nat) : Nat :=
  if b.beginAtomIdx = i then b.endAtomIdx else b.beginAtomIdx

/-- Neighbor atom indices of atom `i` (the Python `atom.GetNeighbors()`),
in bond order. -/
def Mol.neighborsOf (mol : Mol) (i : Nat) : List Nat :=
  (mol.atomBonds i).map fun b => b.otherIdx i

/-- Number of outer-shell (valence) electrons by atomic number, the RDKit
`PERIODIC_TABLE.GetNOuterElecs` capability, tabulated for the elements the
engine handles (H, He, C, N, O, F, P, S, Cl). -/
def outerElecs : Nat → Nat
  | 1 => 1
  | 2 => 2
  | 6 => 4
  | 7 => 5
  | 8 => 6
  | 9 => 7
  | 15 => 5
  | 16 => 6
  | 17 => 7
  | _ => 0

/-- Integer total bond order of atom `i`: `int(sum(b.GetBondTypeAsDouble()))`
as computed in `pathfinder.get_lone_pair` (truncation of a nonnegative sum is
floor, hence natural division of twice the sum by two). -/
def Mol.orderInt (mol : Mol) (i : Nat) : Nat :=
  (((mol.atomBonds i).map fun b => b.bondType.twiceOrder).sum) / 2

/-- Integer electron balance of atom `i`:
`outer_shell_electrons - radical_electrons - formal_charge - order`.
The derived lone-pair count is this balance divided by two. -/
def lonePairBalance (mol : Mol) (i : Nat) : Int :=
  let a := mol.getAtom i
  (outerElecs a.atomicNum : Int) - a.numRadicalElectrons - a.formalCharge -
    mol.orderInt i

/-- Derived lone-pair count of atom `i`, from `pathfinder.get_lone_pair`
(lines 498-507): hydrogen gets 0, every other atom gets the electron balance
divided by two.  Python uses float division; the result is modelled exactly
as a rational, with no integrality or sign check, as in the source. -/
def get_lone_pair (mol : Mol) (i : Nat) : ℚ :=
  if (mol.getAtom i).atomicNum = 1 then 0
  else (lonePairBalance mol i : ℚ) / 2

/-- Net formal charge of a molecule (`mol.GetFormalCharge()`): the sum of
the atomic formal charges. -/
def netCharge (mol : Mol) : Int :=
  (mol.atoms.map Atom.formalCharge).sum

/-- Modelled from the spec: `rdmc.resonance.utils.get_radical_count` is not
in the analysed sources; the spec's multiplicity filter drops structures
"whose total radical-electron count differs", so the count is the sum of the
per-atom radical-electron counts. -/
def get_radical_count (mol : Mol) : Nat :=
  (mol.atoms.map Atom.numRadicalElectrons).sum

/-- Sum of the positive formal charges of a molecule. -/
def posChargeSum (mol : Mol) : Nat :=
  (mol.atoms.map fun a => a.formalCharge.toNat).sum

/-- Sum of the absolute values of the negative formal charges. -/
def negChargeSum (mol : Mol) : Nat :=
  (mol.atoms.map fun a => (-a.formalCharge).toNat).sum

/-- Modelled from the spec: `rdmc.resonance.utils.get_charge_span` is not in
the analysed sources.  The spec describes the charge span as the aggregate
magnitude of formal charges ("sum of |charge| magnitudes, or an equivalent
span metric"), with a span of `min + 1` meaning one extra separated pair of
opposite charges; the equivalent metric counting separated pairs is
`(sum of |charge|  -  |net charge|) / 2 = min(positive sum, |negative| sum)`. -/
def get_charge_span (mol : Mol) : Nat :=
  min (posChargeSum mol) (negChargeSum mol)

/-- Minimum of a list with a default for the empty list (the empty case
never arises in the engine; Python's `min` would raise there). -/
def listMinD {α : Type} [LinearOrder α] (l : List α) (d : α) : α :=
  match l with
  | [] => d
  | h :: t => t.foldl min h

/-- Maximum of a list with a default for the empty list. -/
def listMaxD {α : Type} [LinearOrder α] (l : List α) (d : α) : α :=
  match l with
  | [] => d
  | h :: t => t.foldl max h

/-- Octet-deviation contribution of atom `i`, from
`filtration.get_octet_deviation` (lines 165-232): hydrogens contribute 0;
C/N/O contribute `|8 - val_electrons|`; sulfur contributes the octet or
octet/dectet/duodectet penalty depending on `allow_expanded_octet` and its
lone-pair count, plus 0.5 for each triple bond to another sulfur; and any
atom with two or more radical electrons sitting in a would-be lone-pair slot
(N with 0 lone pairs, O/S with 0-2) contributes an extra 3. -/
def octetDeviationAtom (mol : Mol) (i : Nat) (allow_expanded_octet : Bool) : ℚ :=
  let a := mol.getAtom i
  if a.atomicNum = 1 then 0
  else
    let num_lone_pair : ℚ := get_lone_pair mol i
    let num_rad_elec : ℚ := a.numRadicalElectrons
    let val_electrons : ℚ := 2 * ((mol.orderInt i : ℚ) + num_lone_pair) + num_rad_elec
    let base : ℚ :=
      if a.atomicNum = 6 ∨ a.atomicNum = 7 ∨ a.atomicNum = 8 then
        |8 - val_electrons|
      else if a.atomicNum = 16 then
        (if allow_expanded_octet = false then
          |8 - val_electrons|
        else if num_lone_pair ≤ 1 then
          min (min (|8 - val_electrons|) (|10 - val_electrons|)) (|12 - val_electrons|)
        else if 2 ≤ num_lone_pair then
          |8 - val_electrons|
        else 0) +
        (((mol.atomBonds i).filter fun b =>
            (mol.getAtom (b.otherIdx i)).atomicNum = 16 && b.bondType.code = 3).length
          : ℚ) * (1 / 2)
      else 0
    let birad : ℚ :=
      if 2 ≤ a.numRadicalElectrons ∧
          ((a.atomicNum = 7 ∧ num_lone_pair = 0) ∨
           (a.atomicNum = 8 ∧ (num_lone_pair = 0 ∨ num_lone_pair = 1 ∨ num_lone_pair = 2)) ∨
           (a.atomicNum = 16 ∧ (num_lone_pair = 0 ∨ num_lone_pair = 1 ∨ num_lone_pair = 2))) then
        3
      else 0
    base + birad

/-- Octet deviation of a molecule: the sum over all atoms of the per-atom
penalty (`filtration.get_octet_deviation`). -/
def get_octet_deviation (mol : Mol) (allow_expanded_octet : Bool) : ℚ :=
  ((List.range mol.atoms.length).map fun i =>
    octetDeviationAtom mol i allow_expanded_octet).sum

/-- Octet deviations for a list of molecules
(`filtration.get_octet_deviation_list`). -/
def get_octet_deviation_list (mol_list : List Mol) (allow_expanded_octet : Bool) :
    List ℚ :=
  mol_list.map fun mol => get_octet_deviation mol allow_expanded_octet

/-- Charge spans for a list of molecules (`filtration.get_charge_span_list`). -/
def get_charge_span_list (mol_list : List Mol) : List Nat :=
  mol_list.map get_charge_span

/-- Octet filtration (`filtration.octet_filtration`, lines 236-248): keep
exactly the structures whose octet deviation is the minimum of the list. -/
def octet_filtration (mol_list : List Mol) (octet_deviation_list : List ℚ) :
    List Mol :=
  let min_octet_deviation := listMinD octet_deviation_list 0
  ((mol_list.zip octet_deviation_list).filter fun p =>
    p.2 = min_octet_deviation).map Prod.fst

/-- Capabilities supplied by the external RDKit library and by helper
modules outside the analysed sources.  Every filtration/generation function
is parameterised over an arbitrary `Caps`, so theorems hold for any
behaviour of the external library.
* `electronegativity`: the `utils.get_electronegativity` table.
* `oxoniumMatches`: number of matches of the oxonium SMARTS template
  (`filtration.py` line 378).
* `shortestPathLen`: `len(Chem.GetShortestPath(mol, a1, a2))`.
* `substructMatch a b`: truthiness of `a.GetSubstructMatch(b)`.
* `isIdentical`: `utils.is_identical` (strict identity for
  `keep_isomorphic` mode).
* `isAromatic`: `utils.is_aromatic`.
* `bondRings`: `mol.GetRingInfo().BondRings()`, bond indices per ring.
* `sanitizeOk`: whether `mol.Sanitize(...)` succeeds on the structure. -/
structure Caps where
  electronegativity : Atom → ℚ
  oxoniumMatches : Mol → Nat
  shortestPathLen : Mol → Nat → Nat → Nat
  substructMatch : Mol → Mol → Bool
  isIdentical : Mol → Mol → Bool
  isAromatic : Mol → Bool
  bondRings : Mol → List (List Nat)
  sanitizeOk : Mol → Bool

/-- Electronegativity-weighted positive-charge total of a structure, plus
the oxonium correction (`filtration.py` lines 399-413). -/
def X_positive (caps : Caps) (mol : Mol) : ℚ :=
  ((mol.atoms.filter fun a => 0 < a.formalCharge).map fun a =>
    caps.electronegativity a * a.formalCharge.natAbs).sum +
  caps.oxoniumMatches mol

/-- Electronegativity-weighted negative-charge total of a structure. -/
def X_negative (caps : Caps) (mol : Mol) : ℚ :=
  ((mol.atoms.filter fun a => a.formalCharge < 0).map fun a =>
    caps.electronegativity a * a.formalCharge.natAbs).sum

/-- The per-structure electronegativity test: keep the structure when the
positive total does not exceed the negative total. -/
def enPass (caps : Caps) (mol : Mol) : Bool :=
  X_positive caps mol ≤ X_negative caps mol

/-- Electronegativity stabilization
(`filtration.stabilize_charges_by_electronegativity`, lines 382-424): keep
structures whose electronegativity-weighted positive-charge total (plus the
oxonium correction) does not exceed the weighted negative-charge total;
if that keeps nothing and an empty result is not allowed, return the
original list. -/
def stabilize_charges_by_electronegativity (caps : Caps) (mol_list : List Mol)
    (allow_empty_list : Bool := false) : List Mol :=
  let mol_list_copy := mol_list.filter (enPass caps)
  if mol_list_copy ≠ [] ∨ allow_empty_list = true then mol_list_copy
  else mol_list

/-- Unordered pairs of distinct list elements (`itertools.combinations(l, 2)`). -/
def pairsOf {α : Type} : List α → List (α × α)
  | [] => []
  | x :: xs => (xs.map fun y => (x, y)) ++ pairsOf xs

/-- Charge distance of a molecule (`filtration.get_charge_distance`,
lines 432-460): atoms matched by the `[+]` / `[-]` SMARTS patterns are
those of formal charge exactly +1 / -1; returns the cumulative shortest-path
length between opposite-charge pairs and between same-charge pairs. -/
def get_charge_distance (caps : Caps) (mol : Mol) : Nat × Nat :=
  let pos_atoms := (mol.atoms.enum.filter fun p => p.2.formalCharge = 1).map Prod.fst
  let neg_atoms := (mol.atoms.enum.filter fun p => p.2.formalCharge = -1).map Prod.fst
  let cumulative_similar :=
    ((pairsOf pos_atoms).map fun p => caps.shortestPathLen mol p.1 p.2).sum +
    ((pairsOf neg_atoms).map fun p => caps.shortestPathLen mol p.1 p.2).sum
  let cumulative_opposite :=
    ((pos_atoms.flatMap fun a1 => neg_atoms.map fun a2 => (a1, a2)).map
      fun p => caps.shortestPathLen mol p.1 p.2).sum
  (cumulative_opposite, cumulative_similar)

/-- The minimal cumulative opposite-charge distance over a list (Python's
`min(..., default=0)`). -/
def minOppositeD (caps : Caps) (mol_list : List Mol) : Nat :=
  listMinD ((mol_list.map (get_charge_distance caps)).map Prod.fst) 0

/-- The maximal cumulative same-charge distance over a list (Python's
`max(..., default=0)`). -/
def maxSimilarD (caps : Caps) (mol_list : List Mol) : Nat :=
  listMaxD ((mol_list.map (get_charge_distance caps)).map Prod.snd) 0

/-- Proximity stabilization (`filtration.stabilize_charges_by_proximity`,
lines 464-483): keep structures that achieve both the minimal cumulative
opposite-charge distance and the maximal cumulative same-charge distance
(Python's `min`/`max` with `default=0`). -/
def stabilize_charges_by_proximity (caps : Caps) (mol_list : List Mol) :
    List Mol :=
  let charge_distance_list := mol_list.map (get_charge_distance caps)
  ((mol_list.zip charge_distance_list).filter fun p =>
    p.2.1 ≤ minOppositeD caps mol_list ∧ maxSimilarD caps mol_list ≤ p.2.2).map
    Prod.fst

/-- Atom indices carrying at least one radical electron. -/
def radSites (mol : Mol) : List Nat :=
  (mol.atoms.enum.filter fun p => 0 < p.2.numRadicalElectrons).map Prod.fst

/-- Sorted endpoint pair of a bond. -/
def Bond.sortedPair (b : Bond) : Nat × Nat :=
  (min b.beginAtomIdx b.endAtomIdx, max b.beginAtomIdx b.endAtomIdx)

/-- Double/triple-bond atom-index pairs of a molecule. -/
def mulBondSites (mol : Mol) : List (Nat × Nat) :=
  ((mol.bonds.filter fun b => b.bondType.code = 2 || b.bondType.code = 3).map
    Bond.sortedPair)

/-- Unique-site check (`filtration.has_unique_sites`, lines 342-374).  The
first loop reports a radical site absent from `rad_idxs`.  The second loop in
the source is dedented out of the atom loop, so it inspects only the bonds
of the *last* atom of the molecule (the leaked loop variable); this quirk is
reproduced faithfully.  A double/triple bond of that atom whose sorted index
pair is absent from `mul_bond_idxs` and whose endpoints are not both sulfur
also counts as unique. -/
def has_unique_sites (mol : Mol) (rad_idxs : List Nat)
    (mul_bond_idxs : List (Nat × Nat)) : Bool :=
  (mol.atoms.enum.any fun p =>
    0 < p.2.numRadicalElectrons && !(rad_idxs.contains p.1)) ||
  (match mol.atoms.length with
   | 0 => false
   | n + 1 =>
     (mol.atomBonds n).any fun b =>
       (b.bondType.code = 2 || b.bondType.code = 3) &&
       !(mul_bond_idxs.contains b.sortedPair) &&
       !((mol.getAtom b.beginAtomIdx).atomicNum = 16 &&
         (mol.getAtom b.endAtomIdx).atomicNum = 16))

/-- Whether every entry of a list equals its head (Python's
`len(set(...)) == 1`; the empty list counts as all-equal). -/
def listAllEq (l : List Nat) : Bool :=
  match l with
  | [] => true
  | h :: t => t.all fun s => s = h

/-- Minimal-span bucket of the charge filtration: the structures whose
charge span equals the minimum (only used when several spans occur). -/
def minSpanBucket (mol_list : List Mol) : List Mol :=
  let min_charge_span := listMinD (get_charge_span_list mol_list) 0
  mol_list.filter fun mol => get_charge_span mol = min_charge_span

/-- Second charge-span layer: structures whose span is the minimum plus one. -/
def extraSpanBucket (mol_list : List Mol) : List Mol :=
  let min_charge_span := listMinD (get_charge_span_list mol_list) 0
  mol_list.filter fun mol => get_charge_span mol = min_charge_span + 1

/-- Minimal-span survivors of the charge filtration: the minimal-span layer
after electronegativity and proximity stabilization.  This is the
`filtered_list` of `charge_filtration` at the point where radical and
multiple-bond sites are collected. -/
def minSpanSurvivors (caps : Caps) (mol_list : List Mol) : List Mol :=
  let filtered_list :=
    if listAllEq (get_charge_span_list mol_list) = false then
      minSpanBucket mol_list
    else mol_list
  stabilize_charges_by_proximity caps
    (stabilize_charges_by_electronegativity caps filtered_list false)

/-- Surviving second-layer structures of the charge filtration: the
minimal-plus-one-span layer restricted to structures with a unique radical
or multiple-bond site relative to the minimal-span survivors, then
stabilized by electronegativity (allowing emptiness) and proximity.
Empty when there is no second layer or no unique-site structure. -/
def chargeExtraFinal (caps : Caps) (mol_list : List Mol) : List Mol :=
  let extra_charged_list :=
    if listAllEq (get_charge_span_list mol_list) = false then
      extraSpanBucket mol_list
    else []
  let filtered_list := minSpanSurvivors caps mol_list
  if extra_charged_list ≠ [] then
    let rad_idxs := filtered_list.flatMap radSites
    let mul_bond_idxs := filtered_list.flatMap mulBondSites
    let extra_unique := extra_charged_list.filter fun mol =>
      has_unique_sites mol rad_idxs mul_bond_idxs
    if extra_unique ≠ [] then
      stabilize_charges_by_proximity caps
        (stabilize_charges_by_electronegativity caps extra_unique true)
    else []
  else []

/-- Charge filtration (`filtration.charge_filtration`, lines 267-338).
If every span is zero the list is returned unchanged.  Otherwise the
minimal-span layer is stabilized by electronegativity and proximity, and
second-layer structures are merged back only if they present a unique
radical or multiple-bond site relative to the stabilized minimal-span
survivors, themselves stabilized afterwards. -/
def charge_filtration (caps : Caps) (mol_list : List Mol) : List Mol :=
  let spans := get_charge_span_list mol_list
  if listMinD spans 0 = 0 ∧ listAllEq spans = true then mol_list
  else minSpanSurvivors caps mol_list ++ chargeExtraFinal caps mol_list

/-- Order letter of a bond (`utils.get_order_str`, outside the analysed
sources; modelled from the spec's bond-order signatures): single `S`,
double `D`, triple `T`, aromatic `B`. -/
def BondType.orderChar : BondType → Char
  | .single => 'S'
  | .double => 'D'
  | .triple => 'T'
  | .aromatic => 'B'

/-- Bond-order signature of a ring given by bond indices. -/
def ringOrderChars (mol : Mol) (ring : List Nat) : List Char :=
  ring.map fun bi => (mol.bonds.getD bi default).bondType.orderChar

/-- Feature snapshot of the seed passed into filtration. -/
structure Features where
  is_aromatic : Bool
  isPolycyclicAromatic : Bool
deriving DecidableEq, Repr

/-- Aromaticity filtration (`filtration.aromaticity_filtration`, lines
487-541).  Aromatic structures are kept; for monocyclic systems a
non-aromatic structure is also kept unless one of its six-membered rings
carries the alternating `SDSDSD`/`DSDSDS` signature.  The
`unset_aromatic_flags` preprocessing only clears RDKit perception flags,
which are not part of the molecular graph at this abstraction. -/
def aromaticity_filtration (caps : Caps) (mol_list : List Mol)
    (features : Features) : List Mol :=
  let aromatic_list := mol_list.filter fun mol => caps.isAromatic mol
  let other_list := mol_list.filter fun mol => !(caps.isAromatic mol)
  if features.isPolycyclicAromatic = false then
    aromatic_list ++ other_list.filter fun mol =>
      !(((caps.bondRings mol).filter fun ring => ring.length = 6).any fun ring =>
        ringOrderChars mol ring = ['S', 'D', 'S', 'D', 'S', 'D'] ∨
        ringOrderChars mol ring = ['D', 'S', 'D', 'S', 'D', 'S'])
  else aromatic_list

/-- Error outcomes of `filter_structures`. -/
inductive FilterError where
  | emptyInput
  | noRepresentative (seed : Mol)
deriving DecidableEq, Repr

/-- The filtered list just before the seed re-insertion step of
`filter_structures`: multiplicity filter, octet filtration, charge
filtration, and (for aromatic seeds) aromaticity filtration, in order. -/
def preReinsertion (caps : Caps) (allow_expanded_octet : Bool)
    (features : Option Features) (mol_list : List Mol) : List Mol :=
  match mol_list with
  | [] => []
  | m0 :: _ =>
    let ref_radical_count := get_radical_count m0
    let ml := mol_list.filter fun mol => get_radical_count mol = ref_radical_count
    let octet_deviation_list := get_octet_deviation_list ml allow_expanded_octet
    let filtered1 := octet_filtration ml octet_deviation_list
    let filtered2 := charge_filtration caps filtered1
    match features with
    | some ft =>
      if ft.is_aromatic = true then aromaticity_filtration caps filtered2 ft
      else filtered2
    | none => filtered2

/-- Locate the first structure matching the seed and detach it: returns the
matching structure together with the remaining list in order, or `none` when
nothing matches. -/
def moveMatch (caps : Caps) (seed : Mol) : List Mol → Option (Mol × List Mol)
  | [] => none
  | m :: rest =>
    if caps.substructMatch m seed then some (m, rest)
    else
      match moveMatch caps seed rest with
      | some (x, rest2) => some (x, m :: rest2)
      | none => none

/-- Seed re-insertion (`filter_structures` lines 132-138): the first
filtered structure matching the seed is moved to position 0 (`pop` then
`insert(0, ...)`); if none matches, the unfiltered seed itself is inserted
at position 0. -/
def reinsertSeed (caps : Caps) (seed : Mol) (filtered_list : List Mol) :
    List Mol :=
  match moveMatch caps seed filtered_list with
  | some (x, rest) => x :: rest
  | none => seed :: filtered_list

/-- Structure filtration (`filtration.filter_structures`, lines 69-140):
multiplicity filter, octet filtration, charge filtration, optional
aromaticity filtration, the empty-result error, and seed re-insertion.
Python raises `IndexError` on an empty input (`mol_list[0]`); that case is
modelled as `FilterError.emptyInput`. -/
def filter_structures (caps : Caps) (allow_expanded_octet : Bool)
    (features : Option Features) (mol_list : List Mol) :
    Except FilterError (List Mol) :=
  match mol_list with
  | [] => .error .emptyInput
  | m0 :: _ =>
    let filtered_list := preReinsertion caps allow_expanded_octet features mol_list
    if filtered_list = [] then .error (.noRepresentative m0)
    else .ok (reinsertSeed caps m0 filtered_list)

/-- Whether an atom can gain a lone pair
(`pathfinder.is_atom_able_to_gain_lone_pair`, lines 476-484): N/S with 0-2
lone pairs, O with 1-2, or C with 0. -/
def is_atom_able_to_gain_lone_pair (mol : Mol) (i : Nat) : Bool :=
  let a := mol.getAtom i
  let lp := get_lone_pair mol i
  ((a.atomicNum = 7 || a.atomicNum = 16) && (lp = 0 ∨ lp = 1 ∨ lp = 2)) ||
  (a.atomicNum = 8 && (lp = 1 ∨ lp = 2)) ||
  (a.atomicNum = 6 && lp = 0)

/-- Whether an atom can lose a lone pair
(`pathfinder.is_atom_able_to_lose_lone_pair`, lines 487-495): N/S with 1-3
lone pairs, O with 2-3, or C with 1. -/
def is_atom_able_to_lose_lone_pair (mol : Mol) (i : Nat) : Bool :=
  let a := mol.getAtom i
  let lp := get_lone_pair mol i
  ((a.atomicNum = 7 || a.atomicNum = 16) && (lp = 1 ∨ lp = 2 ∨ lp = 3)) ||
  (a.atomicNum = 8 && (lp = 2 ∨ lp = 3)) ||
  (a.atomicNum = 6 && lp = 1)

/-- Adjacent lone-pair/radical delocalization paths
(`pathfinder.find_adj_lone_pair_radical_delocalization_paths`, lines
317-360): `atom1` (index `i`) must be a radical with an element-specific
lone-pair count; each qualifying neighbor `atom2` yields a two-atom path.
The oxygen neighbor branch checks `atom1.GetAtomicNum() != 6` (carbon),
exactly as the source does. -/
def find_adj_lone_pair_radical_delocalization_paths (mol : Mol) (i : Nat) :
    List (Nat × Nat) :=
  let a1 := mol.getAtom i
  let lp1 := get_lone_pair mol i
  if 1 ≤ a1.numRadicalElectrons ∧
      ((a1.atomicNum = 6 ∧ lp1 = 0) ∨
       (a1.atomicNum = 7 ∧ (lp1 = 0 ∨ lp1 = 1)) ∨
       (a1.atomicNum = 8 ∧ (lp1 = 1 ∨ lp1 = 2)) ∨
       (a1.atomicNum = 16 ∧ (lp1 = 0 ∨ lp1 = 1 ∨ lp1 = 2))) then
    ((mol.neighborsOf i).filter fun j =>
      let a2 := mol.getAtom j
      let lp2 := get_lone_pair mol j
      (a2.atomicNum = 6 && lp2 = 1) ||
      (a2.atomicNum = 7 && (lp2 = 1 ∨ lp2 = 2)) ||
      (a2.atomicNum = 8 && (lp2 = 2 ∨ lp2 = 3) && !(a1.atomicNum = 6)) ||
      (a2.atomicNum = 16 && (lp2 = 1 ∨ lp2 = 2 ∨ lp2 = 3))).map fun j => (i, j)
  else []

/-- Adjacent lone-pair/multiple-bond delocalization paths
(`pathfinder.find_adj_lone_pair_multiple_bond_delocalization_paths`, lines
363-405): carbon centers are excluded; for every non-hydrogen neighbor,
direction 1 (increase bond order) requires a single/double bond, the ability
of `atom1` to lose a lone pair, and not creating an S double-bonded to S;
direction 2 (decrease bond order) requires a double/triple bond and the
ability of `atom1` to gain a lone pair.  Each path carries
(atom1, atom2, bond index, direction). -/
def find_adj_lone_pair_multiple_bond_delocalization_paths (mol : Mol)
    (i : Nat) : List (Nat × Nat × Nat × Nat) :=
  let a1 := mol.getAtom i
  if a1.atomicNum = 6 then []
  else
    (mol.atomBondsIdx i).flatMap fun p =>
      let bidx := p.1
      let b := p.2
      let j := b.otherIdx i
      let a2 := mol.getAtom j
      if 1 < a2.atomicNum then
        (if (b.bondType.code = 1 || b.bondType.code = 2) &&
            is_atom_able_to_lose_lone_pair mol i &&
            !(a1.atomicNum = 16 && a2.atomicNum = 16 && b.bondType.code = 2) then
          [(i, j, bidx, 1)]
        else []) ++
        (if (b.bondType.code = 2 || b.bondType.code = 3) &&
            is_atom_able_to_gain_lone_pair mol i then
          [(i, j, bidx, 2)]
        else [])
      else []

/-- Modelled from the spec: `utils.increment_order` is not in the analysed
sources; per spec section 4.1 it raises the bond order by exactly one unit
and fails at the triple bound (aromatic orders are not unit-incrementable). -/
def incrementOrder : BondType → Option BondType
  | .single => some .double
  | .double => some .triple
  | .triple => none
  | .aromatic => none

/-- Modelled from the spec: `utils.decrement_order` lowers the bond order by
exactly one unit and fails at the single bound. -/
def decrementOrder : BondType → Option BondType
  | .single => none
  | .double => some .single
  | .triple => some .double
  | .aromatic => none

/-- Replace the bond at index `bidx` with a new bond type. -/
def Mol.setBondType (mol : Mol) (bidx : Nat) (bt : BondType) : Mol :=
  { mol with
    bonds := mol.bonds.set bidx { mol.bonds.getD bidx default with bondType := bt } }

/-- Increment the order of bond `bidx`, failing at the triple bound. -/
def Mol.incrementBond (mol : Mol) (bidx : Nat) : Option Mol :=
  match incrementOrder (mol.bonds.getD bidx default).bondType with
  | some bt => some (mol.setBondType bidx bt)
  | none => none

/-- Decrement the order of bond `bidx`, failing at the single bound. -/
def Mol.decrementBond (mol : Mol) (bidx : Nat) : Option Mol :=
  match decrementOrder (mol.bonds.getD bidx default).bondType with
  | some bt => some (mol.setBondType bidx bt)
  | none => none

/-- Replace the atom at index `i`. -/
def Mol.setAtom (mol : Mol) (i : Nat) (a : Atom) : Mol :=
  { mol with atoms := mol.atoms.set i a }

/-- Modelled from the spec: `utils.update_charge(atom, lone_pairs)` is not
in the analysed sources; per spec section 4.1 it recomputes the formal
charge from a target lone-pair count via the outer-shell electron balance:
`charge = outer_shell_electrons - radical_electrons - 2*lone_pairs - order`.
The target produced by the callers always makes `2*lone_pairs` integral;
the floor realises that value exactly. -/
def update_charge (mol : Mol) (i : Nat) (lone_pairs : ℚ) : Mol :=
  let a := mol.getAtom i
  mol.setAtom i
    { a with
      formalCharge :=
        (outerElecs a.atomicNum : Int) - a.numRadicalElectrons -
          ⌊2 * lone_pairs⌋ - mol.orderInt i }

/-- The edit applied per path by
`resonance_rmg.generate_adj_lone_pair_multiple_bond_resonance_structures`
(lines 431-448) before sanitization: direction 1 raises the bond order and
recomputes atom1's charge with one fewer lone pair (the reference's
stored-lone-pair decrement has no effect on the derived count tracked here);
direction 2 lowers the bond order and recomputes with one more lone pair.
In both directions atom2's charge is then recomputed with its current
derived lone-pair count (the reference's `atom2.update_charge` call).
A failing bond edit corresponds to the swallowed exception. -/
def adjLonePairMultipleBondEdit (mol : Mol) (a1 a2 bidx direction : Nat) :
    Option Mol :=
  let lone_pair1 := get_lone_pair mol a1
  let afterDir : Option Mol :=
    if direction = 1 then
      match mol.incrementBond bidx with
      | some m => some (update_charge m a1 (lone_pair1 - 1))
      | none => none
    else if direction = 2 then
      match mol.decrementBond bidx with
      | some m => some (update_charge m a1 (lone_pair1 + 1))
      | none => none
    else some mol
  match afterDir with
  | some m => some (update_charge m a2 (get_lone_pair m a2))
  | none => none

/-- Generation rule
(`resonance_rmg.generate_adj_lone_pair_multiple_bond_resonance_structures`,
lines 420-454): for every atom, apply the edit on each discovered path on a
private copy; candidates whose sanitization fails are silently dropped, and
a sanitized candidate is appended only when its net formal charge is zero
(`if not structure.GetFormalCharge()`). -/
def generate_adj_lone_pair_multiple_bond_resonance_structures (caps : Caps)
    (mol : Mol) : List Mol :=
  (List.range mol.atoms.length).flatMap fun i =>
    (find_adj_lone_pair_multiple_bond_delocalization_paths mol i).filterMap
      fun path =>
        (adjLonePairMultipleBondEdit mol path.1 path.2.1 path.2.2.1
            path.2.2.2).bind fun structure0 =>
          if caps.sanitizeOk structure0 then
            if netCharge structure0 = 0 then some structure0 else none
          else none

/-- A resonance-structure generation rule, as stored in the engine's method
list: a function from a molecule to the candidate structures it produces. -/
abbrev Method := Mol → List Mol

/-- State of the worklist scan of
`resonance_rmg._generate_resonance_structures`: the growing structure list,
the running minimum octet deviation and charge span, and the scan index. -/
structure GenState where
  molList : List Mol
  minOctet : ℚ
  minSpan : Nat
  index : Nat
deriving Repr

/-- Deduplicating append (`_generate_resonance_structures` lines 293-303):
each produced candidate is appended only if no existing worklist member is
isomorphic to it (or, in `keep_isomorphic` mode, identical to it); later
candidates are deduplicated against earlier appended ones. -/
def dedupAppend (caps : Caps) (keep_isomorphic : Bool) (mol_list : List Mol)
    (new_mol_list : List Mol) : List Mol :=
  new_mol_list.foldl
    (fun acc new_mol =>
      if acc.any (fun mol =>
          if keep_isomorphic then caps.isIdentical mol new_mol
          else caps.substructMatch mol new_mol) then acc
      else acc ++ [new_mol])
    mol_list

/-- The on-the-fly filtration guard of the worklist scan
(`_generate_resonance_structures` line 283): the structure at the current
index is expanded only when its octet deviation is within the running
minimum plus two and its charge span is within the running minimum plus
one. -/
def expandGuard (s : GenState) : Bool :=
  let molecule := s.molList.getD s.index default
  get_octet_deviation molecule true ≤ s.minOctet + 2 ∧
    get_charge_span molecule ≤ s.minSpan + 1

/-- One iteration of the worklist scan
(`_generate_resonance_structures` lines 272-306): when the guard passes,
every registered generation rule is invoked on the current structure and
the running minima are tightened; the produced candidates are appended
after deduplication, and the index advances. -/
def genStep (caps : Caps) (keep_isomorphic : Bool) (method_list : List Method)
    (s : GenState) : GenState :=
  let molecule := s.molList.getD s.index default
  let octet_deviation := get_octet_deviation molecule true
  let charge_span := get_charge_span molecule
  let new_mol_list :=
    if expandGuard s then method_list.flatMap fun method => method molecule
    else []
  let minOctet :=
    if expandGuard s ∧ octet_deviation < s.minOctet then octet_deviation
    else s.minOctet
  let minSpan :=
    if expandGuard s ∧ charge_span < s.minSpan then charge_span
    else s.minSpan
  { molList := dedupAppend caps keep_isomorphic s.molList new_mol_list
    minOctet := minOctet
    minSpan := minSpan
    index := s.index + 1 }

/-- The worklist loop, driven by explicit fuel; `none` means the fuel was
exhausted before the scan caught up with the end of the list. -/
def genLoop (caps : Caps) (keep_isomorphic : Bool) (method_list : List Method) :
    Nat → GenState → Option GenState
  | 0, s => if s.index < s.molList.length then none else some s
  | fuel + 1, s =>
    if s.index < s.molList.length then
      genLoop caps keep_isomorphic method_list fuel
        (genStep caps keep_isomorphic method_list s)
    else some s

/-- Initial scan state (`_generate_resonance_structures` lines 267-271):
both running minima are initialized from the seed list. -/
def initGenState (mol_list : List Mol) : GenState :=
  { molList := mol_list
    minOctet := listMinD (get_octet_deviation_list mol_list true) 0
    minSpan := listMinD (get_charge_span_list mol_list) 0
    index := 0 }

/-- Post-pass net-charge enforcement (`_generate_resonance_structures` lines
308-318): every worklist member beyond the seed whose net formal charge
differs from the seed's is removed.  The Python loop iterates a snapshot
slice `mol_list[1:]` and removes each offending member (all list members
are distinct objects), which is exactly this filter. -/
def chargePass : List Mol → List Mol
  | [] => []
  | m0 :: rest => m0 :: rest.filter fun mol => netCharge mol = netCharge m0

/-- The full `_generate_resonance_structures` run: scan the worklist to
closure, then enforce the net-charge invariant. -/
def generateResonanceStructuresCore (caps : Caps) (keep_isomorphic : Bool)
    (method_list : List Method) (fuel : Nat) (mol_list : List Mol) :
    Option (List Mol) :=
  match genLoop caps keep_isomorphic method_list fuel (initGenState mol_list) with
  | none => none
  | some s => some (chargePass s.molList)

/-- Decidable equality for `Except` results, used to evaluate the embedding
on concrete inputs. -/
instance {ε α : Type} [DecidableEq ε] [DecidableEq α] :
    DecidableEq (Except ε α) := fun a b =>
  match a, b with
  | .error e1, .error e2 =>
    if h : e1 = e2 then isTrue (by rw [h])
    else isFalse (by intro hc; cases hc; exact h rfl)
  | .error _, .ok _ => isFalse (by intro hc; cases hc)
  | .ok _, .error _ => isFalse (by intro hc; cases hc)
  | .ok a1, .ok a2 =>
    if h : a1 = a2 then isTrue (by rw [h])
    else isFalse (by intro hc; cases hc; exact h rfl)

/-! Concrete instances used to exercise the definitions: a simple capability
record and small molecular graphs. -/

/-- Concrete capability record used for evaluating the embedding on small
examples: structural equality for matching/identity, no aromatic
perception, no rings, zero path lengths and electronegativities, and
sanitization that accepts everything. -/
def caps0 : Caps where
  electronegativity := fun _ => 0
  oxoniumMatches := fun _ => 0
  shortestPathLen := fun _ _ _ => 0
  substructMatch := fun a b => a == b
  isIdentical := fun a b => a == b
  isAromatic := fun _ => false
  bondRings := fun _ => []
  sanitizeOk := fun _ => true

/-- A bare carbon atom (octet deviation 4, no radicals, no charges). -/
def c2molA : Mol := { atoms := [{ atomicNum := 6, formalCharge := 0, numRadicalElectrons := 0 }], bonds := [] }

/-- A helium atom carrying two radical electrons (octet deviation 0,
radical count 2). -/
def c2molB : Mol := { atoms := [{ atomicNum := 2, formalCharge := 0, numRadicalElectrons := 2 }], bonds := [] }

/-- An amine-like fragment: nitrogen singly bonded to two hydrogens.  Its
electron balance is odd, so the derived lone-pair count is fractional. -/
def c5mol : Mol :=
  { atoms := [{ atomicNum := 7, formalCharge := 0, numRadicalElectrons := 0 },
              { atomicNum := 1, formalCharge := 0, numRadicalElectrons := 0 },
              { atomicNum := 1, formalCharge := 0, numRadicalElectrons := 0 }]
    bonds := [{ beginAtomIdx := 0, endAtomIdx := 1, bondType := .single },
              { beginAtomIdx := 0, endAtomIdx := 2, bondType := .single }] }

/-- A water-like oxygen: two single bonds, even nonnegative balance. -/
def c5mol2 : Mol :=
  { atoms := [{ atomicNum := 8, formalCharge := 0, numRadicalElectrons := 0 },
              { atomicNum := 1, formalCharge := 0, numRadicalElectrons := 0 },
              { atomicNum := 1, formalCharge := 0, numRadicalElectrons := 0 }]
    bonds := [{ beginAtomIdx := 0, endAtomIdx := 1, bondType := .single },
              { beginAtomIdx := 0, endAtomIdx := 2, bondType := .single }] }

/-- A hydroperoxyl-like radical H-O-[O.]: atom 0 is a radical oxygen with
two lone pairs, atom 1 an oxygen with two lone pairs, atom 2 a hydrogen. -/
def c6mol : Mol :=
  { atoms := [{ atomicNum := 8, formalCharge := 0, numRadicalElectrons := 1 },
              { atomicNum := 8, formalCharge := 0, numRadicalElectrons := 0 },
              { atomicNum := 1, formalCharge := 0, numRadicalElectrons := 0 }]
    bonds := [{ beginAtomIdx := 0, endAtomIdx := 1, bondType := .single },
              { beginAtomIdx := 1, endAtomIdx := 2, bondType := .single }] }

/-- A nitrogen singly bonded to a negatively charged carbon: the adjacent
lone-pair/multiple-bond rule produces a net-neutral candidate from it. -/
def c10mol : Mol :=
  { atoms := [{ atomicNum := 7, formalCharge := 0, numRadicalElectrons := 0 },
              { atomicNum := 6, formalCharge := -1, numRadicalElectrons := 0 }]
    bonds := [{ beginAtomIdx := 0, endAtomIdx := 1, bondType := .single }] }

/-- The candidate produced from `c10mol` by direction 1: the bond becomes
double, nitrogen becomes positively charged, net charge zero. -/
def c10out : Mol :=
  { atoms := [{ atomicNum := 7, formalCharge := 1, numRadicalElectrons := 0 },
              { atomicNum := 6, formalCharge := -1, numRadicalElectrons := 0 }]
    bonds := [{ beginAtomIdx := 0, endAtomIdx := 1, bondType := .double }] }

/-- A charge-free, radical-free carbon used as a minimal-span structure. -/
def c4molP : Mol := c2molA

/-- A charge-separated radical structure of span one: a positively charged
radical nitrogen and a negatively charged oxygen. -/
def c4molQ : Mol :=
  { atoms := [{ atomicNum := 7, formalCharge := 1, numRadicalElectrons := 1 },
              { atomicNum := 8, formalCharge := -1, numRadicalElectrons := 0 }]
    bonds := [] }

/-- Zipping a list with its own image lists the element/value pairs. -/
theorem zip_map_self {α β : Type} (f : α → β) :
    ∀ l : List α, l.zip (l.map f) = l.map fun x => (x, f x)
  | [] => rfl
  | x :: xs => by simp [zip_map_self f xs]

/-- Folding `min` over entries all equal to the starting value is the
starting value. -/
theorem foldl_min_allEq {α : Type} [LinearOrder α] {h0 : α} :
    ∀ {t : List α}, (∀ x ∈ t, x = h0) → t.foldl min h0 = h0
  | [], _ => rfl
  | x :: xs, h => by
    have hx : x = h0 := h x (by simp)
    have hxs : ∀ y ∈ xs, y = h0 := fun y hy => h y (by simp [hy])
    simp [hx, foldl_min_allEq hxs]

/-- When every charge span in a list is equal, each member's span is the
minimum span. -/
theorem span_eq_min_of_allEq {L : List Mol}
    (h : listAllEq (get_charge_span_list L) = true) {m : Mol} (hm : m ∈ L) :
    get_charge_span m = listMinD (get_charge_span_list L) 0 := by
  cases L with
  | nil => cases hm
  | cons a t =>
    have hall : ∀ x ∈ (get_charge_span_list t), x = get_charge_span a := by
      intro x hx
      have := (List.all_eq_true.1 h) x
      simp only [get_charge_span_list, listAllEq] at this ⊢
      exact of_decide_eq_true (this hx)
    have hmin : listMinD (get_charge_span_list (a :: t)) 0 = get_charge_span a := by
      simp only [get_charge_span_list, List.map_cons, listMinD]
      exact foldl_min_allEq hall
    rw [hmin]
    rcases List.mem_cons.1 hm with hma | hmt
    · rw [hma]
    · exact hall (get_charge_span m) (List.mem_map_of_mem get_charge_span hmt)

/-- Electronegativity stabilization returns a subset of its input. -/
theorem mem_of_mem_stabEN {caps : Caps} {l : List Mol} {b : Bool} {m : Mol}
    (h : m ∈ stabilize_charges_by_electronegativity caps l b) : m ∈ l := by
  unfold stabilize_charges_by_electronegativity at h
  dsimp only at h
  split at h
  · exact List.mem_of_mem_filter h
  · exact h

/-- Proximity stabilization returns a subset of its input. -/
theorem mem_of_mem_stabProx {caps : Caps} {l : List Mol} {m : Mol}
    (h : m ∈ stabilize_charges_by_proximity caps l) : m ∈ l := by
  unfold stabilize_charges_by_proximity at h
  obtain ⟨p, hp, hpm⟩ := List.mem_map.1 h
  exact hpm ▸ (List.of_mem_zip (List.mem_of_mem_filter hp)).1

/-- Minimal-span survivors are drawn from the input list. -/
theorem mem_of_mem_minSpanSurvivors {caps : Caps} {L : List Mol} {m : Mol}
    (h : m ∈ minSpanSurvivors caps L) : m ∈ L := by
  unfold minSpanSurvivors at h
  have h1 := mem_of_mem_stabEN (mem_of_mem_stabProx h)
  split at h1
  · exact List.mem_of_mem_filter h1
  · exact h1

/-- A member of the minimal-span bucket has the minimum charge span. -/
theorem span_of_mem_minSpanBucket {L : List Mol} {m : Mol}
    (h : m ∈ minSpanBucket L) :
    get_charge_span m = listMinD (get_charge_span_list L) 0 := by
  unfold minSpanBucket at h
  dsimp only at h
  exact of_decide_eq_true (List.mem_filter.1 h).2

/-- The first structure found by `moveMatch` matches the seed. -/
theorem moveMatch_matches (caps : Caps) (seed : Mol) :
    ∀ (l : List Mol) (x : Mol) (rest : List Mol),
      moveMatch caps seed l = some (x, rest) →
      caps.substructMatch x seed = true := by
  intro l
  induction l with
  | nil => intro x rest h; simp [moveMatch] at h
  | cons m t ih =>
    intro x rest h
    unfold moveMatch at h
    by_cases hm : caps.substructMatch m seed = true
    · rw [if_pos hm] at h
      cases h
      exact hm
    · rw [if_neg hm] at h
      cases hmm : moveMatch caps seed t with
      | none => rw [hmm] at h; cases h
      | some p =>
        obtain ⟨px, pr⟩ := p
        rw [hmm] at h
        simp only [Option.some.injEq, Prod.mk.injEq] at h
        obtain ⟨hx, -⟩ := h
        subst hx
        exact ih px pr hmm

/-- A structure kept by octet filtration attains the minimum octet
deviation of the filtered list. -/
theorem mem_octet_filtration_dev {L : List Mol} {allow : Bool} {m : Mol}
    (h : m ∈ octet_filtration L (get_octet_deviation_list L allow)) :
    get_octet_deviation m allow =
      listMinD (get_octet_deviation_list L allow) 0 := by
  unfold octet_filtration at h
  dsimp only at h
  rw [show get_octet_deviation_list L allow =
      L.map (fun mol => get_octet_deviation mol allow) from rfl, zip_map_self] at h
  obtain ⟨p, hp, hpm⟩ := List.mem_map.1 h
  obtain ⟨hpz, hpmin⟩ := List.mem_filter.1 hp
  obtain ⟨x, _, hx⟩ := List.mem_map.1 hpz
  have h2 : p.2 = get_octet_deviation m allow := by
    rw [← hx] at hpm ⊢
    simp only at hpm ⊢
    rw [hpm]
  rw [← h2]
  exact of_decide_eq_true hpmin

/-! Claim theorems. -/

/-- C2 (amended): every structure kept by octet filtration has an
octet-deviation score equal to the minimum octet deviation over the list
octet filtration receives, i.e. the multiplicity-filtered list; the later
pipeline stages only select among these, but the minimum is not taken over
the full unfiltered generated set, and the final seed re-insertion can
additionally restore a seed of non-minimal deviation. -/
theorem c2_octet_filtration_min (L : List Mol) (allow : Bool) (m : Mol)
    (h : m ∈ octet_filtration L (get_octet_deviation_list L allow)) :
    get_octet_deviation m allow =
      listMinD (get_octet_deviation_list L allow) 0 :=
  mem_octet_filtration_dev h

/-- C2 counterexample: on the input `[c2molA, c2molB]` the minimum octet
deviation over the full unfiltered list is 0 (attained by `c2molB`), yet
the filtration output keeps exactly `c2molA`, whose octet deviation is 4:
`c2molB` is removed by the multiplicity prefilter before the octet minimum
is computed, so kept structures need not attain the full-list minimum. -/
theorem c2_counterexample :
    filter_structures caps0 true none [c2molA, c2molB] = .ok [c2molA] ∧
    get_octet_deviation c2molA true = 4 ∧
    listMinD (get_octet_deviation_list [c2molA, c2molB] true) 0 = 0 := by
  refine ⟨?_, ?_, ?_⟩ <;> with_unfolding_all decide

/-- C2 witness: the amended statement applied to the singleton list. -/
theorem c2_witness :
    c2molA ∈ octet_filtration [c2molA] (get_octet_deviation_list [c2molA] true) ∧
    get_octet_deviation c2molA true =
      listMinD (get_octet_deviation_list [c2molA] true) 0 :=
  ⟨by with_unfolding_all decide,
   c2_octet_filtration_min [c2molA] true c2molA (by with_unfolding_all decide)⟩

/-- C5 (amended): the derived lone-pair count of an atom is a nonnegative
integer whenever the electron balance is even and nonnegative; the source
performs no such check, and for an odd or negative balance the fractional
or negative value is returned silently rather than the structure being
marked invalid and discarded. -/
theorem c5_lone_pair_integral (mol : Mol) (i : Nat)
    (heven : 2 ∣ lonePairBalance mol i) (hpos : 0 ≤ lonePairBalance mol i) :
    ∃ n : ℕ, get_lone_pair mol i = n := by
  unfold get_lone_pair
  split
  · exact ⟨0, by norm_num⟩
  · obtain ⟨k, hk⟩ := heven
    have hk0 : 0 ≤ k := by omega
    refine ⟨k.toNat, ?_⟩
    have hcast : ((k.toNat : ℕ) : ℚ) = (k : ℚ) := by
      exact_mod_cast congrArg (fun z : ℤ => (z : ℚ)) (Int.toNat_of_nonneg hk0)
    rw [hk, hcast]
    push_cast
    ring

/-- C5 counterexample: on the amine-like fragment `c5mol` the nitrogen's
derived lone-pair count evaluates to 3/2, a non-integer rational (its
reduced denominator is 2, not 1), and `get_lone_pair` returns it as an
ordinary value: no invalidation or discarding takes place. -/
theorem c5_counterexample :
    get_lone_pair c5mol 0 = 3 / 2 ∧ (get_lone_pair c5mol 0).den = 2 := by
  refine ⟨?_, ?_⟩ <;> with_unfolding_all decide

/-- C5 witness: the amended statement applied to a water-like oxygen whose
electron balance is 4. -/
theorem c5_witness :
    (2 ∣ lonePairBalance c5mol2 0) ∧ (0 ≤ lonePairBalance c5mol2 0) ∧
    ∃ n : ℕ, get_lone_pair c5mol2 0 = n :=
  ⟨by with_unfolding_all decide, by with_unfolding_all decide,
   c5_lone_pair_integral c5mol2 0 (by with_unfolding_all decide)
     (by with_unfolding_all decide)⟩

/-- C6: on the hydroperoxyl-like radical `c6mol`, the adjacent
lone-pair/radical path family returns the two-atom path (0, 1) in which
both atoms are oxygen, contradicting the function's own documentation that
two adjacent O atoms are not allowed: the source guards the oxygen-neighbor
branch with `atom1.GetAtomicNum() != 6` (not carbon) instead of excluding
oxygen. -/
theorem c6_oxygen_pair_returned :
    find_adj_lone_pair_radical_delocalization_paths c6mol 0 = [(0, 1)] ∧
    (c6mol.getAtom 0).atomicNum = 8 ∧ (c6mol.getAtom 1).atomicNum = 8 := by
  refine ⟨?_, ?_, ?_⟩ <;> with_unfolding_all decide

/-- C10: every structure returned by the adjacent lone-pair/multiple-bond
generation rule has net formal charge exactly zero, enforced by the final
`if not structure.GetFormalCharge()` guard of the rule. -/
theorem c10_rule_net_charge_zero (caps : Caps) (mol s : Mol)
    (h : s ∈ generate_adj_lone_pair_multiple_bond_resonance_structures caps mol) :
    netCharge s = 0 := by
  unfold generate_adj_lone_pair_multiple_bond_resonance_structures at h
  simp only [List.mem_flatMap, List.mem_filterMap] at h
  obtain ⟨i, _, path, _, hsome⟩ := h
  rw [Option.bind_eq_some] at hsome
  obtain ⟨st, _, hst⟩ := hsome
  by_cases hs : caps.sanitizeOk st = true
  · rw [if_pos hs] at hst
    by_cases hc : netCharge st = 0
    · rw [if_pos hc] at hst
      cases hst
      exact hc
    · rw [if_neg hc] at hst
      cases hst
  · rw [if_neg hs] at hst
    cases hst

/-- C10 witness: the rule applied to `c10mol` produces exactly the
net-neutral candidate `c10out`. -/
theorem c10_witness :
    c10out ∈ generate_adj_lone_pair_multiple_bond_resonance_structures caps0 c10mol ∧
    netCharge c10out = 0 :=
  ⟨by with_unfolding_all decide,
   c10_rule_net_charge_zero caps0 c10mol c10out (by with_unfolding_all decide)⟩

/-- C7: when `filter_structures` returns normally, its first element either
matches the original seed under the isomorphism capability (the matching
survivor is moved to position 0) or is the unfiltered seed itself (inserted
at position 0 when no survivor matches). -/
theorem c7_first_element_matches_seed (caps : Caps) (allow : Bool)
    (features : Option Features) (m0 : Mol) (t : List Mol) (m : Mol)
    (rest : List Mol)
    (hok : filter_structures caps allow features (m0 :: t) = .ok (m :: rest)) :
    caps.substructMatch m m0 = true ∨ m = m0 := by
  unfold filter_structures at hok
  dsimp only at hok
  by_cases hemp : preReinsertion caps allow features (m0 :: t) = []
  · rw [if_pos hemp] at hok
    cases hok
  · rw [if_neg hemp] at hok
    have hr : reinsertSeed caps m0 (preReinsertion caps allow features (m0 :: t)) =
        m :: rest := by
      injection hok
    unfold reinsertSeed at hr
    cases hmv : moveMatch caps m0 (preReinsertion caps allow features (m0 :: t)) with
    | none =>
      rw [hmv] at hr
      simp only [List.cons.injEq] at hr
      exact Or.inr hr.1.symm
    | some p =>
      obtain ⟨px, pr⟩ := p
      rw [hmv] at hr
      simp only [List.cons.injEq] at hr
      exact Or.inl (hr.1 ▸ moveMatch_matches caps m0 _ px pr hmv)

/-- C7 witness: on the singleton input `[c2molA]`, the output's first
element is matched to the seed. -/
theorem c7_witness :
    filter_structures caps0 true none [c2molA] = .ok [c2molA] ∧
    (caps0.substructMatch c2molA c2molA = true ∨ c2molA = c2molA) :=
  ⟨by with_unfolding_all decide,
   c7_first_element_matches_seed caps0 true none c2molA [] c2molA []
     (by with_unfolding_all decide)⟩

/-- C8: on a nonempty input, `filter_structures` raises the distinct
"no representative structure" error naming the seed exactly when the four
ordered filters leave an empty list before the seed re-insertion step, and
in every other case it returns a list without raising. -/
theorem c8_error_iff_empty_prefilter (caps : Caps) (allow : Bool)
    (features : Option Features) (m0 : Mol) (t : List Mol) :
    (filter_structures caps allow features (m0 :: t) =
        .error (.noRepresentative m0) ↔
      preReinsertion caps allow features (m0 :: t) = []) ∧
    (preReinsertion caps allow features (m0 :: t) ≠ [] →
      ∃ out, filter_structures caps allow features (m0 :: t) = .ok out) := by
  constructor
  · constructor
    · intro h
      by_contra hne
      unfold filter_structures at h
      dsimp only at h
      rw [if_neg hne] at h
      cases h
    · intro h
      unfold filter_structures
      dsimp only
      rw [if_pos h]
  · intro hne
    unfold filter_structures
    dsimp only
    rw [if_neg hne]
    exact ⟨_, rfl⟩

/-- C8 witness: the theorem applied to the singleton input `[c2molA]`,
whose pre-re-insertion list is nonempty. -/
theorem c8_witness :
    (filter_structures caps0 true none [c2molA] =
        .error (.noRepresentative c2molA) ↔
      preReinsertion caps0 true none [c2molA] = []) ∧
    (preReinsertion caps0 true none [c2molA] ≠ [] →
      ∃ out, filter_structures caps0 true none [c2molA] = .ok out) :=
  c8_error_iff_empty_prefilter caps0 true none c2molA []

/-- Soundness of the unique-site check: a positive answer exhibits either a
radical site of the molecule outside `rad_idxs` or a double/triple-bond
atom-index pair of the molecule outside `mul_bond_idxs`. -/
theorem has_unique_sites_sound {m : Mol} {rad_idxs : List Nat}
    {mul_bond_idxs : List (Nat × Nat)}
    (h : has_unique_sites m rad_idxs mul_bond_idxs = true) :
    (∃ i ∈ radSites m, i ∉ rad_idxs) ∨
    (∃ p ∈ mulBondSites m, p ∉ mul_bond_idxs) := by
  unfold has_unique_sites at h
  rw [Bool.or_eq_true] at h
  rcases h with h | h
  · left
    obtain ⟨pr, hpr, hcond⟩ := List.any_eq_true.1 h
    rw [Bool.and_eq_true] at hcond
    obtain ⟨hrad, hnc⟩ := hcond
    refine ⟨pr.1, ?_, ?_⟩
    · exact List.mem_map_of_mem Prod.fst (List.mem_filter.2 ⟨hpr, hrad⟩)
    · intro hin
      rw [Bool.not_eq_eq_eq_not, Bool.not_true] at hnc
      have helem : rad_idxs.contains pr.1 = true := List.elem_iff.2 hin
      rw [helem] at hnc
      cases hnc
  · right
    rcases hlen : m.atoms.length with _ | n
    · rw [hlen] at h
      cases h
    · rw [hlen] at h
      obtain ⟨b, hb, hcond⟩ := List.any_eq_true.1 h
      rw [Bool.and_eq_true, Bool.and_eq_true] at hcond
      obtain ⟨⟨hcode, hnc⟩, -⟩ := hcond
      refine ⟨b.sortedPair, ?_, ?_⟩
      · exact List.mem_map_of_mem Bond.sortedPair
          (List.mem_filter.2 ⟨List.mem_of_mem_filter hb, hcode⟩)
      · intro hin
        rw [Bool.not_eq_eq_eq_not, Bool.not_true] at hnc
        have helem : mul_bond_idxs.contains b.sortedPair = true :=
          List.elem_iff.2 hin
        rw [helem] at hnc
        cases hnc

/-- A member of the surviving second charge layer passed the unique-site
check against the minimal-span survivors. -/
theorem mem_chargeExtraFinal_unique {caps : Caps} {L : List Mol} {m : Mol}
    (h : m ∈ chargeExtraFinal caps L) :
    has_unique_sites m ((minSpanSurvivors caps L).flatMap radSites)
      ((minSpanSurvivors caps L).flatMap mulBondSites) = true := by
  unfold chargeExtraFinal at h
  dsimp only at h
  repeat' split at h
  all_goals
    first
      | cases h
      | exact (List.mem_filter.1 (mem_of_mem_stabEN (mem_of_mem_stabProx h))).2

/-- C4: a structure of charge span equal to the minimum plus one appears in
the charge-filtration output only if it has a radical atom index absent
from every minimal-span survivor or a double/triple-bond atom-index pair
absent from every minimal-span survivor. -/
theorem c4_extra_layer_unique_sites (caps : Caps) (L : List Mol) (m : Mol)
    (hmem : m ∈ charge_filtration caps L)
    (hspan : get_charge_span m = listMinD (get_charge_span_list L) 0 + 1) :
    (∃ i ∈ radSites m, ∀ s ∈ minSpanSurvivors caps L, i ∉ radSites s) ∨
    (∃ p ∈ mulBondSites m, ∀ s ∈ minSpanSurvivors caps L, p ∉ mulBondSites s) := by
  unfold charge_filtration at hmem
  dsimp only at hmem
  split at hmem
  case isTrue h =>
    have := span_eq_min_of_allEq h.2 hmem
    omega
  case isFalse hbr =>
    rcases List.mem_append.1 hmem with hmem1 | hmem2
    · have hL := mem_of_mem_minSpanSurvivors hmem1
      unfold minSpanSurvivors at hmem1
      dsimp only at hmem1
      have h1 := mem_of_mem_stabEN (mem_of_mem_stabProx hmem1)
      by_cases hae : listAllEq (get_charge_span_list L) = false
      · rw [if_pos hae] at h1
        have := span_of_mem_minSpanBucket h1
        omega
      · have hae2 : listAllEq (get_charge_span_list L) = true := by
          revert hae; cases listAllEq (get_charge_span_list L) <;> simp
        have := span_eq_min_of_allEq hae2 hL
        omega
    · have hus := mem_chargeExtraFinal_unique hmem2
      rcases has_unique_sites_sound hus with ⟨i, hi, hni⟩ | ⟨p, hp, hnp⟩
      · left
        refine ⟨i, hi, fun s hs hins => hni ?_⟩
        exact List.mem_flatMap.2 ⟨s, hs, hins⟩
      · right
        refine ⟨p, hp, fun s hs hins => hnp ?_⟩
        exact List.mem_flatMap.2 ⟨s, hs, hins⟩

/-- C4 witness: on `[c4molP, c4molQ]` the span-one structure `c4molQ`
survives charge filtration and indeed has a radical site absent from the
sole minimal-span survivor. -/
theorem c4_witness :
    c4molQ ∈ charge_filtration caps0 [c4molP, c4molQ] ∧
    get_charge_span c4molQ =
      listMinD (get_charge_span_list [c4molP, c4molQ]) 0 + 1 ∧
    ((∃ i ∈ radSites c4molQ,
        ∀ s ∈ minSpanSurvivors caps0 [c4molP, c4molQ], i ∉ radSites s) ∨
     (∃ p ∈ mulBondSites c4molQ,
        ∀ s ∈ minSpanSurvivors caps0 [c4molP, c4molQ], p ∉ mulBondSites s)) :=
  ⟨by with_unfolding_all decide, by with_unfolding_all decide,
   c4_extra_layer_unique_sites caps0 [c4molP, c4molQ] c4molQ
     (by with_unfolding_all decide) (by with_unfolding_all decide)⟩

/-- C3: in the worklist scan, the generation rules are invoked on the
structure at the current index exactly when its octet deviation is at most
the running minimum octet deviation plus two and its charge span is at most
the running minimum charge span plus one; one scan step never increases
either running minimum, and both minima are initialized from the seed
list. -/
theorem c3_scan_guard_and_minima (caps : Caps) (keep_isomorphic : Bool)
    (method_list : List Method) (s : GenState) :
    ((get_octet_deviation (s.molList.getD s.index default) true ≤ s.minOctet + 2 ∧
        get_charge_span (s.molList.getD s.index default) ≤ s.minSpan + 1) →
      (genStep caps keep_isomorphic method_list s).molList =
        dedupAppend caps keep_isomorphic s.molList
          (method_list.flatMap fun method =>
            method (s.molList.getD s.index default))) ∧
    (¬(get_octet_deviation (s.molList.getD s.index default) true ≤ s.minOctet + 2 ∧
        get_charge_span (s.molList.getD s.index default) ≤ s.minSpan + 1) →
      (genStep caps keep_isomorphic method_list s).molList = s.molList) ∧
    (genStep caps keep_isomorphic method_list s).minOctet ≤ s.minOctet ∧
    (genStep caps keep_isomorphic method_list s).minSpan ≤ s.minSpan ∧
    (initGenState s.molList).minOctet =
      listMinD (get_octet_deviation_list s.molList true) 0 ∧
    (initGenState s.molList).minSpan =
      listMinD (get_charge_span_list s.molList) 0 := by
  refine ⟨?_, ?_, ?_, ?_, rfl, rfl⟩
  · intro hg
    have hguard : expandGuard s = true := by
      unfold expandGuard
      exact decide_eq_true hg
    simp [genStep, hguard]
  · intro hg
    have hguard : expandGuard s = false := by
      unfold expandGuard
      exact decide_eq_false hg
    simp [genStep, hguard, dedupAppend]
  · unfold genStep
    dsimp only
    split
    · next h => exact le_of_lt h.2
    · exact le_refl _
  · unfold genStep
    dsimp only
    split
    · next h => exact Nat.le_of_lt h.2
    · exact Nat.le_refl _

/-- C3 witness: the characterization applied to the initial state of the
seed list `[c2molA]`, whose guard holds at index 0. -/
theorem c3_witness :
    (genStep caps0 false [] (initGenState [c2molA])).molList =
      dedupAppend caps0 false (initGenState [c2molA]).molList
        (([] : List Method).flatMap fun method =>
          method ((initGenState [c2molA]).molList.getD
            (initGenState [c2molA]).index default)) ∧
    (genStep caps0 false [] (initGenState [c2molA])).minOctet ≤
      (initGenState [c2molA]).minOctet :=
  ⟨(c3_scan_guard_and_minima caps0 false [] (initGenState [c2molA])).1
      (by with_unfolding_all decide),
   (c3_scan_guard_and_minima caps0 false [] (initGenState [c2molA])).2.2.1⟩

/-- Deduplicating append only appends; the appended structures are drawn
from the candidate list. -/
theorem dedupAppend_eq_append (caps : Caps) (keep_isomorphic : Bool) :
    ∀ (new_mol_list acc : List Mol),
      ∃ ext, dedupAppend caps keep_isomorphic acc new_mol_list = acc ++ ext ∧
        ∀ x ∈ ext, x ∈ new_mol_list := by
  intro new_mol_list
  induction new_mol_list with
  | nil => exact fun acc => ⟨[], by simp [dedupAppend], by simp⟩
  | cons nm rest ih =>
    intro acc
    have hstep : dedupAppend caps keep_isomorphic acc (nm :: rest) =
        dedupAppend caps keep_isomorphic
          (if acc.any (fun mol =>
              if keep_isomorphic then caps.isIdentical mol nm
              else caps.substructMatch mol nm) then acc
           else acc ++ [nm]) rest := rfl
    by_cases hc : acc.any (fun mol =>
        if keep_isomorphic then caps.isIdentical mol nm
        else caps.substructMatch mol nm) = true
    · obtain ⟨ext, heq, hsub⟩ := ih acc
      refine ⟨ext, ?_, fun x hx => List.mem_cons_of_mem nm (hsub x hx)⟩
      rw [hstep, if_pos hc, heq]
    · obtain ⟨ext, heq, hsub⟩ := ih (acc ++ [nm])
      refine ⟨nm :: ext, ?_, ?_⟩
      · rw [hstep, if_neg hc, heq, List.append_assoc]
        rfl
      · intro x hx
        rcases List.mem_cons.1 hx with hx1 | hx2
        · exact hx1 ▸ List.mem_cons_self nm rest
        · exact List.mem_cons_of_mem nm (hsub x hx2)

/-- One scan step preserves the worklist head and the atom-count invariant,
provided every generation rule preserves atom counts. -/
theorem genStep_preserves_invariant (caps : Caps) (keep_isomorphic : Bool)
    (method_list : List Method) (m0 : Mol) (s : GenState)
    (hmeth : ∀ f ∈ method_list, ∀ mol s2, s2 ∈ f mol →
      s2.atoms.length = mol.atoms.length)
    (hidx : s.index < s.molList.length)
    (hhead : s.molList.head? = some m0)
    (hcount : ∀ m ∈ s.molList, m.atoms.length = m0.atoms.length) :
    (genStep caps keep_isomorphic method_list s).molList.head? = some m0 ∧
    ∀ m ∈ (genStep caps keep_isomorphic method_list s).molList,
      m.atoms.length = m0.atoms.length := by
  have hmol : s.molList.getD s.index default ∈ s.molList := by
    rw [List.getD_eq_getElem s.molList default hidx]
    exact List.getElem_mem hidx
  have hnew : ∀ x ∈ (if expandGuard s then
      method_list.flatMap fun method =>
        method (s.molList.getD s.index default)
      else []), x.atoms.length = m0.atoms.length := by
    intro x hx
    split at hx
    · obtain ⟨f, hf, hxf⟩ := List.mem_flatMap.1 hx
      rw [hmeth f hf _ x hxf]
      exact hcount _ hmol
    · cases hx
  obtain ⟨ext, heq, hsub⟩ := dedupAppend_eq_append caps keep_isomorphic
    (if expandGuard s then
      method_list.flatMap fun method =>
        method (s.molList.getD s.index default)
      else []) s.molList
  have hml : (genStep caps keep_isomorphic method_list s).molList =
      s.molList ++ ext := heq
  constructor
  · rw [hml]
    cases hl : s.molList with
    | nil => rw [hl] at hhead; cases hhead
    | cons a tl => rw [hl] at hhead; rw [List.cons_append]; exact hhead
  · intro m hm
    rw [hml] at hm
    rcases List.mem_append.1 hm with hm1 | hm2
    · exact hcount m hm1
    · exact hnew m (hsub m hm2)

/-- The worklist loop preserves the head and the atom-count invariant. -/
theorem genLoop_preserves_invariant (caps : Caps) (keep_isomorphic : Bool)
    (method_list : List Method) (m0 : Mol)
    (hmeth : ∀ f ∈ method_list, ∀ mol s2, s2 ∈ f mol →
      s2.atoms.length = mol.atoms.length) :
    ∀ (fuel : Nat) (s s' : GenState),
      s.molList.head? = some m0 →
      (∀ m ∈ s.molList, m.atoms.length = m0.atoms.length) →
      genLoop caps keep_isomorphic method_list fuel s = some s' →
      s'.molList.head? = some m0 ∧
      ∀ m ∈ s'.molList, m.atoms.length = m0.atoms.length := by
  intro fuel
  induction fuel with
  | zero =>
    intro s s' hhead hcount hrun
    unfold genLoop at hrun
    split at hrun
    · cases hrun
    · injection hrun with hs
      exact hs ▸ ⟨hhead, hcount⟩
  | succ n ih =>
    intro s s' hhead hcount hrun
    unfold genLoop at hrun
    split at hrun
    · next hidx =>
      obtain ⟨hh, hc⟩ := genStep_preserves_invariant caps keep_isomorphic
        method_list m0 s hmeth hidx hhead hcount
      exact ih _ _ hh hc hrun
    · injection hrun with hs
      exact hs ▸ ⟨hhead, hcount⟩

/-- C1: when the worklist scan of `_generate_resonance_structures`
terminates on a seed list headed by `m0` whose members all share the seed's
atom count, and every registered generation rule preserves atom counts,
then every structure in the returned list has the seed's atom count and the
seed's net formal charge: the post-pass enforcement removes every worklist
member whose net charge differs from the seed's. -/
theorem c1_output_atom_count_and_charge (caps : Caps) (keep_isomorphic : Bool)
    (method_list : List Method) (fuel : Nat) (m0 : Mol) (t : List Mol)
    (out : List Mol)
    (hcount : ∀ m ∈ m0 :: t, m.atoms.length = m0.atoms.length)
    (hmeth : ∀ f ∈ method_list, ∀ mol s2, s2 ∈ f mol →
      s2.atoms.length = mol.atoms.length)
    (hrun : generateResonanceStructuresCore caps keep_isomorphic method_list
      fuel (m0 :: t) = some out) :
    ∀ s ∈ out, s.atoms.length = m0.atoms.length ∧ netCharge s = netCharge m0 := by
  unfold generateResonanceStructuresCore at hrun
  cases hloop : genLoop caps keep_isomorphic method_list fuel
      (initGenState (m0 :: t)) with
  | none => rw [hloop] at hrun; cases hrun
  | some sf =>
    rw [hloop] at hrun
    injection hrun with hout
    obtain ⟨hhead, hcnt⟩ := genLoop_preserves_invariant caps keep_isomorphic
      method_list m0 hmeth fuel (initGenState (m0 :: t)) sf rfl hcount hloop
    cases hml : sf.molList with
    | nil => rw [hml] at hhead; cases hhead
    | cons a rest =>
      rw [hml] at hhead
      have ha : a = m0 := by injection hhead
      intro s hs
      rw [← hout, hml] at hs
      unfold chargePass at hs
      rcases List.mem_cons.1 hs with hsa | hsrest
      · refine ⟨hcnt s ?_, ?_⟩
        · rw [hml, hsa]
          exact List.mem_cons_self _ _
        · rw [hsa, ha]
      · obtain ⟨hsr, hsc⟩ := List.mem_filter.1 hsrest
        refine ⟨hcnt s ?_, ?_⟩
        · rw [hml]
          exact List.mem_cons_of_mem a hsr
        · rw [← ha]
          exact of_decide_eq_true hsc

/-- C1 witness: a two-structure seed list in which the second member's net
charge differs from the seed's; after the scan the charge pass removes it,
and the conclusion holds for the surviving seed. -/
theorem c1_witness :
    generateResonanceStructuresCore caps0 false [] 2 [c4molQ, c10mol] =
      some [c4molQ] ∧
    (c4molQ.atoms.length = c4molQ.atoms.length ∧
      netCharge c4molQ = netCharge c4molQ) :=
  ⟨by with_unfolding_all decide,
   c1_output_atom_count_and_charge caps0 false [] 2 c4molQ [c10mol] [c4molQ]
     (by with_unfolding_all decide)
     (by intro f hf; cases hf)
     (by with_unfolding_all decide) c4molQ (by with_unfolding_all decide)⟩

end RDMC
